import Mathlib

/-!
Shallow embedding of the Notion aggregation core of this repository:
the function `getNotionAggregatedValue` of `src/index.js` (lines 72-132,
the fan-out revision) together with the extraction step of the older
revision of the same function (`src/unnamed/part_000`, lines 70-121).
JS numbers are modelled as rationals; the remote service is an explicit
environment mapping each outbound request to its outcome, so that one
resolution call becomes a pure function of that environment.
-/

/-- One fan-out target taken from the metadata response, an object with an
`id` field as in `data_sources: [{id: string}, ...]` (src/index.js line 90),
or the fallback `{ id: databaseId }` of line 91. -/
structure SubSource where
  id : String
  deriving DecidableEq, Repr

/-- The value of the `data_sources` field of the metadata response when the
field is present and truthy: either a JSON array of sub-sources, or some
other truthy value, over which the `for (const source of dataSources)` loop
of line 99 would raise a TypeError. -/
inductive DataSourcesField where
  | list (sources : List SubSource)
  | nonIterable
  deriving DecidableEq, Repr

/-- The JSON body of a successful `GET /v1/databases/{id}` response
(src/index.js lines 86-91): `none` models the `data_sources` field being
absent or otherwise falsy. -/
structure MetaResponse where
  data_sources : Option DataSourcesField
  deriving DecidableEq, Repr

/-- A page property as the tagged union the service returns: a plain number,
a formula carrying an inner result type, a rollup carrying an inner result
type, or a property of any other kind.  Numeric payloads are optional
because the service may return `null` for them. -/
inductive PropValue where
  | number (num : Option ℚ)
  | formula (innerType : String) (num : Option ℚ)
  | rollup (innerType : String) (num : Option ℚ)
  | other (kind : String)
  deriving DecidableEq, Repr

/-- One result page of a query response: its property map, keyed by property
name, as in `page.properties`. -/
structure Page where
  properties : List (String × PropValue)
  deriving DecidableEq, Repr

/-- The remote service as seen by one resolution call: the outcome of the
metadata lookup for a database id (line 86) and the outcome of the query for
a sub-source id (line 102).  `Except.error` models a request that fails
(network, auth, 4xx, 5xx), `Except.ok` a successful JSON body. -/
structure Env where
  meta : String → Except Unit MetaResponse
  query : String → Except Unit (List Page)

/-- Constant `DEFAULT_PROPERTY = "WidgetValue"` (src/index.js line 23). -/
def DEFAULT_PROPERTY : String := "WidgetValue"

/-- Line 75, `const targetProp = propertyName || DEFAULT_PROPERTY;`, with the
empty string standing for every falsy JS value. -/
def resolveProp (propertyName : String) : String :=
  if propertyName = "" then DEFAULT_PROPERTY else propertyName

/-- Line 76, `const calc = calculationType || "sum";`. -/
def resolveCalc (calculationType : String) : String :=
  if calculationType = "" then "sum" else calculationType

/-- JS object indexing `properties[name]`: the binding of the name in the
property map, or nothing when the key is absent. -/
def findProp : List (String × PropValue) → String → Option PropValue
  | [], _ => none
  | (k, v) :: rest, name => if k = name then some v else findProp rest name

/-- Lines 105-114 of `src/index.js`: extract the numeric value of the target
property from one page.  A missing property, a property of a kind other than
number or formula-number (rollup included), and a null numeric payload all
yield no value. -/
def extractValue (targetProp : String) (page : Page) : Option ℚ :=
  match findProp page.properties targetProp with
  | none => none
  | some prop =>
    match prop with
    | .formula innerType num => if innerType = "number" then num else none
    | .number num => num
    | .rollup _ _ => none
    | .other _ => none

/-- Lines 88-102 of `src/unnamed/part_000`: the legacy extraction, identical
except for the extra branch
`prop.type === "rollup" && prop.rollup.type === "number"`. -/
def extractValueLegacy (targetProp : String) (page : Page) : Option ℚ :=
  match findProp page.properties targetProp with
  | none => none
  | some prop =>
    match prop with
    | .formula innerType num => if innerType = "number" then num else none
    | .number num => num
    | .rollup innerType num => if innerType = "number" then num else none
    | .other _ => none

/-- Spread minimum `Math.min(...values)` on a non-empty array; the empty case
sits behind the `values.length === 0` guard and is never reached. -/
def listMin : List ℚ → ℚ
  | [] => 0
  | v :: vs => vs.foldl min v

/-- Spread maximum `Math.max(...values)` on a non-empty array. -/
def listMax : List ℚ → ℚ
  | [] => 0
  | v :: vs => vs.foldl max v

/-- Lines 119-127, the reduction step shared verbatim by both revisions: an
empty value list returns 0 before any dispatch; otherwise each recognised
aggregation kind reduces the list, and an unrecognised kind falls through to
the final `return 0`. -/
def aggregateValues (calcKind : String) (values : List ℚ) : ℚ :=
  if values.length = 0 then 0
  else if calcKind = "sum" then values.foldl (· + ·) 0
  else if calcKind = "average" then values.foldl (· + ·) 0 / (values.length : ℚ)
  else if calcKind = "count" then (values.length : ℚ)
  else if calcKind = "min" then listMin values
  else if calcKind = "max" then listMax values
  else 0

/-- Lines 100-116: query one sub-source and extract the values of its first
results batch, in page order.  A failed query is caught by the inner
`catch (innerError)` and contributes no values. -/
def sourceValues (env : Env) (targetProp : String) (s : SubSource) : List ℚ :=
  match env.query s.id with
  | .error _ => []
  | .ok pages => pages.filterMap (extractValue targetProp)

/-- Lines 97-117: the `values` array after the `for (const source of
dataSources)` loop, each sub-source appending its extracted values in
iteration order. -/
def collectValues (env : Env) (targetProp : String) (srcs : List SubSource) : List ℚ :=
  srcs.foldl (fun acc s => acc ++ sourceValues env targetProp s) []

/-- Outcome of the body of the outer `try` (lines 73-127): the body either
reaches a `return` carrying a number or `null`, or an error escapes to the
outer `catch` of line 128. -/
inductive JsOutcome where
  | ret (v : Option ℚ)
  | thrown
  deriving DecidableEq, Repr

/-- Lines 73-127 of `src/index.js`, the body of the outer `try`: a falsy
token returns 0 at once (line 74); a failed metadata lookup returns `null`
from the inner catch (line 94); a present truthy `data_sources` field is
used as the fan-out list even when it is the empty array, while an absent or
falsy field falls back to `[{ id: databaseId }]` (lines 90-91); a truthy
non-iterable `data_sources` makes the loop of line 99 raise, which only the
outer catch sees; otherwise the collected values are reduced. -/
def aggregatorBody (env : Env)
    (accessToken databaseId propertyName calculationType : String) : JsOutcome :=
  if accessToken = "" then .ret (some 0)
  else
    let targetProp := resolveProp propertyName
    let calcKind := resolveCalc calculationType
    match env.meta databaseId with
    | .error _ => .ret none
    | .ok resp =>
      match resp.data_sources.getD (.list [⟨databaseId⟩]) with
      | .nonIterable => .thrown
      | .list srcs => .ret (some (aggregateValues calcKind (collectValues env targetProp srcs)))

/-- Lines 72-132, `getNotionAggregatedValue` itself: the outer catch maps any
escaped error to `null`.  `none` models the JS `null`, `some q` a number. -/
def getNotionAggregatedValue (env : Env)
    (accessToken databaseId propertyName calculationType : String) : Option ℚ :=
  match aggregatorBody env accessToken databaseId propertyName calculationType with
  | .ret v => v
  | .thrown => none

/-- Fixture page carrying the number 1 in property `p`. -/
def pageNum1 : Page := ⟨[("p", PropValue.number (some 1))]⟩

/-- Fixture page carrying the number 2 in property `p`. -/
def pageNum2 : Page := ⟨[("p", PropValue.number (some 2))]⟩

/-- Fixture page carrying the number 5 in property `p`. -/
def pageNum5 : Page := ⟨[("p", PropValue.number (some 5))]⟩

/-- Fixture page whose property `p` is a rollup whose inner result type is
number, with inner value 7. -/
def pageRollup7 : Page := ⟨[("p", PropValue.rollup "number" (some 7))]⟩

/-- Environment whose metadata lookup fails while every sub-source query
would have succeeded. -/
def envMetaDown : Env :=
  { meta := fun _ => .error ()
    query := fun _ => .ok [pageNum5] }

/-- Environment with two sub-sources `A` and `B`: `A` yields pages with the
values 1 and 2, the query of `B` fails. -/
def envTwoSources : Env :=
  { meta := fun _ => .ok ⟨some (.list [⟨"A"⟩, ⟨"B"⟩])⟩
    query := fun i => if i = "A" then .ok [pageNum1, pageNum2] else .error () }

/-- Environment whose metadata response carries `data_sources: []`, while a
direct query of any id would yield the value 5. -/
def envEmptyList : Env :=
  { meta := fun _ => .ok ⟨some (.list [])⟩
    query := fun _ => .ok [pageNum5] }

/-- The same service with the `data_sources` field absent from the metadata
response. -/
def envNoField : Env :=
  { meta := fun _ => .ok ⟨none⟩
    query := fun _ => .ok [pageNum5] }

/-- Environment whose single fallback source returns one rollup-number
page. -/
def envRollup : Env :=
  { meta := fun _ => .ok ⟨none⟩
    query := fun _ => .ok [pageRollup7] }

/-- Environment whose metadata response has a truthy non-iterable
`data_sources` field. -/
def envBadField : Env :=
  { meta := fun _ => .ok ⟨some .nonIterable⟩
    query := fun _ => .ok [] }

/-- Environment with one explicit sub-source returning no pages at all. -/
def envNoPages : Env :=
  { meta := fun _ => .ok ⟨some (.list [⟨"A"⟩])⟩
    query := fun _ => .ok [] }

theorem foldl_add_shift (vs : List ℚ) (a : ℚ) : vs.foldl (· + ·) a = a + vs.sum := by
  induction vs generalizing a with
  | nil => simp
  | cons v vs ih => simp only [List.foldl_cons, List.sum_cons, ih]; ring

theorem foldl_add_eq_sum (vs : List ℚ) : vs.foldl (· + ·) 0 = vs.sum := by
  simpa using foldl_add_shift vs 0

theorem foldl_min_le_init (vs : List ℚ) (a : ℚ) : vs.foldl min a ≤ a := by
  induction vs generalizing a with
  | nil => exact le_refl a
  | cons v vs ih =>
    rw [List.foldl_cons]
    exact le_trans (ih (min a v)) (min_le_left a v)

theorem foldl_min_le_mem (vs : List ℚ) (a x : ℚ) (hx : x ∈ vs) :
    vs.foldl min a ≤ x := by
  induction vs generalizing a with
  | nil => cases hx
  | cons v vs ih =>
    rw [List.foldl_cons]
    rcases List.mem_cons.mp hx with rfl | hx
    · exact le_trans (foldl_min_le_init vs (min a x)) (min_le_right a x)
    · exact ih (min a v) hx

theorem foldl_min_mem (vs : List ℚ) (a : ℚ) :
    vs.foldl min a = a ∨ vs.foldl min a ∈ vs := by
  induction vs generalizing a with
  | nil => exact Or.inl rfl
  | cons v vs ih =>
    rw [List.foldl_cons]
    rcases ih (min a v) with h | h
    · rcases min_choice a v with h2 | h2
      · exact Or.inl (h.trans h2)
      · exact Or.inr (by rw [h, h2]; exact List.mem_cons_self v vs)
    · exact Or.inr (List.mem_cons_of_mem v h)

theorem foldl_max_le_init (vs : List ℚ) (a : ℚ) : a ≤ vs.foldl max a := by
  induction vs generalizing a with
  | nil => exact le_refl a
  | cons v vs ih =>
    rw [List.foldl_cons]
    exact le_trans (le_max_left a v) (ih (max a v))

theorem foldl_max_le_mem (vs : List ℚ) (a x : ℚ) (hx : x ∈ vs) :
    x ≤ vs.foldl max a := by
  induction vs generalizing a with
  | nil => cases hx
  | cons v vs ih =>
    rw [List.foldl_cons]
    rcases List.mem_cons.mp hx with rfl | hx
    · exact le_trans (le_max_right a x) (foldl_max_le_init vs (max a x))
    · exact ih (max a v) hx

theorem foldl_max_mem (vs : List ℚ) (a : ℚ) :
    vs.foldl max a = a ∨ vs.foldl max a ∈ vs := by
  induction vs generalizing a with
  | nil => exact Or.inl rfl
  | cons v vs ih =>
    rw [List.foldl_cons]
    rcases ih (max a v) with h | h
    · rcases max_choice a v with h2 | h2
      · exact Or.inl (h.trans h2)
      · exact Or.inr (by rw [h, h2]; exact List.mem_cons_self v vs)
    · exact Or.inr (List.mem_cons_of_mem v h)

theorem listMin_mem (vs : List ℚ) (h : vs ≠ []) : listMin vs ∈ vs := by
  match vs with
  | [] => exact absurd rfl h
  | v :: tail =>
    rcases foldl_min_mem tail v with h2 | h2
    · rw [listMin, h2]; exact List.mem_cons_self v tail
    · exact List.mem_cons_of_mem v h2

theorem listMin_le (vs : List ℚ) (x : ℚ) (hx : x ∈ vs) : listMin vs ≤ x := by
  match vs with
  | [] => cases hx
  | v :: tail =>
    rcases List.mem_cons.mp hx with rfl | h2
    · exact foldl_min_le_init tail x
    · exact foldl_min_le_mem tail v x h2

theorem listMax_mem (vs : List ℚ) (h : vs ≠ []) : listMax vs ∈ vs := by
  match vs with
  | [] => exact absurd rfl h
  | v :: tail =>
    rcases foldl_max_mem tail v with h2 | h2
    · rw [listMax, h2]; exact List.mem_cons_self v tail
    · exact List.mem_cons_of_mem v h2

theorem listMax_le (vs : List ℚ) (x : ℚ) (hx : x ∈ vs) : x ≤ listMax vs := by
  match vs with
  | [] => cases hx
  | v :: tail =>
    rcases List.mem_cons.mp hx with rfl | h2
    · exact foldl_max_le_init tail x
    · exact foldl_max_le_mem tail v x h2

theorem collectValues_shift (env : Env) (tp : String) (srcs : List SubSource)
    (init : List ℚ) :
    srcs.foldl (fun acc s => acc ++ sourceValues env tp s) init =
      init ++ collectValues env tp srcs := by
  induction srcs generalizing init with
  | nil => simp [collectValues]
  | cons s rest ih =>
    rw [collectValues, List.foldl_cons, List.foldl_cons, ih, List.nil_append, ih,
      List.append_assoc]

theorem collectValues_cons (env : Env) (tp : String) (s : SubSource)
    (rest : List SubSource) :
    collectValues env tp (s :: rest) =
      sourceValues env tp s ++ collectValues env tp rest := by
  rw [collectValues, List.foldl_cons, List.nil_append, collectValues_shift]

theorem collectValues_append (env : Env) (tp : String) (l1 l2 : List SubSource) :
    collectValues env tp (l1 ++ l2) =
      collectValues env tp l1 ++ collectValues env tp l2 := by
  induction l1 with
  | nil => simp [collectValues]
  | cons s rest ih =>
    rw [List.cons_append, collectValues_cons, collectValues_cons, ih,
      List.append_assoc]

theorem aggregateValues_empty (calcKind : String) : aggregateValues calcKind [] = 0 := rfl

theorem aggregateValues_sum (values : List ℚ) (h : values ≠ []) :
    aggregateValues "sum" values = values.sum := by
  rw [aggregateValues, if_neg (by simpa [List.length_eq_zero] using h), if_pos rfl,
    foldl_add_eq_sum]

theorem aggregateValues_average (values : List ℚ) (h : values ≠ []) :
    aggregateValues "average" values = values.sum / (values.length : ℚ) := by
  rw [aggregateValues, if_neg (by simpa [List.length_eq_zero] using h),
    if_neg (by decide), if_pos rfl, foldl_add_eq_sum]

theorem aggregateValues_count (values : List ℚ) (h : values ≠ []) :
    aggregateValues "count" values = (values.length : ℚ) := by
  rw [aggregateValues, if_neg (by simpa [List.length_eq_zero] using h),
    if_neg (by decide), if_neg (by decide), if_pos rfl]

theorem aggregateValues_min (values : List ℚ) (h : values ≠ []) :
    aggregateValues "min" values = listMin values := by
  rw [aggregateValues, if_neg (by simpa [List.length_eq_zero] using h),
    if_neg (by decide), if_neg (by decide), if_neg (by decide), if_pos rfl]

theorem aggregateValues_max (values : List ℚ) (h : values ≠ []) :
    aggregateValues "max" values = listMax values := by
  rw [aggregateValues, if_neg (by simpa [List.length_eq_zero] using h),
    if_neg (by decide), if_neg (by decide), if_neg (by decide), if_neg (by decide),
    if_pos rfl]

/-- Claim C1: on every non-empty extracted-value sequence the reduction step
returns, for kind sum the arithmetic sum, for average the arithmetic mean
(sum divided by count), for count the cardinality, and for min and max an
extremal element of the sequence; in particular on [2, 4, 6] it returns
12, 4, 3, 2 and 6 respectively. -/
theorem reduction_step_spec (values : List ℚ) (h : values ≠ []) :
    aggregateValues "sum" values = values.sum
    ∧ aggregateValues "average" values = values.sum / (values.length : ℚ)
    ∧ aggregateValues "count" values = (values.length : ℚ)
    ∧ aggregateValues "min" values ∈ values
    ∧ (∀ x ∈ values, aggregateValues "min" values ≤ x)
    ∧ aggregateValues "max" values ∈ values
    ∧ (∀ x ∈ values, x ≤ aggregateValues "max" values)
    ∧ aggregateValues "sum" [2, 4, 6] = 12
    ∧ aggregateValues "average" [2, 4, 6] = 4
    ∧ aggregateValues "count" [2, 4, 6] = 3
    ∧ aggregateValues "min" [2, 4, 6] = 2
    ∧ aggregateValues "max" [2, 4, 6] = 6 := by
  have h246 : ([2, 4, 6] : List ℚ) ≠ [] := by decide
  refine ⟨aggregateValues_sum values h, aggregateValues_average values h,
    aggregateValues_count values h, ?_, ?_, ?_, ?_, ?_, ?_, ?_, ?_, ?_⟩
  · rw [aggregateValues_min values h]; exact listMin_mem values h
  · intro x hx; rw [aggregateValues_min values h]; exact listMin_le values x hx
  · rw [aggregateValues_max values h]; exact listMax_mem values h
  · intro x hx; rw [aggregateValues_max values h]; exact listMax_le values x hx
  · rw [aggregateValues_sum _ h246]; norm_num
  · rw [aggregateValues_average _ h246]; norm_num
  · rw [aggregateValues_count _ h246]; norm_num
  · rw [aggregateValues_min _ h246, listMin]; norm_num
  · rw [aggregateValues_max _ h246, listMax]; norm_num

/-- Witness for C1 at the concrete sequence [2, 4, 6]. -/
theorem reduction_step_spec_witness :
    aggregateValues "sum" [2, 4, 6] = 12 ∧ aggregateValues "average" [2, 4, 6] = 4
    ∧ aggregateValues "count" [2, 4, 6] = 3 ∧ aggregateValues "min" [2, 4, 6] = 2
    ∧ aggregateValues "max" [2, 4, 6] = 6 := by
  obtain ⟨-, -, -, -, -, -, -, e1, e2, e3, e4, e5⟩ :=
    reduction_step_spec [2, 4, 6] (by decide)
  exact ⟨e1, e2, e3, e4, e5⟩

/-- Claim C2: whenever the metadata lookup for the source id fails, the call
returns the unavailable signal (null), whatever every sub-source query would
have answered, and no numeric partial result is produced. -/
theorem metadata_failure_unavailable (env : Env) (tok db p c : String)
    (h1 : tok ≠ "") (h2 : env.meta db = .error ()) :
    getNotionAggregatedValue env tok db p c = none := by
  simp [getNotionAggregatedValue, aggregatorBody, h1, h2]

/-- Witness for C2: a concrete service whose metadata lookup fails while
every query would have succeeded. -/
theorem metadata_failure_unavailable_witness :
    getNotionAggregatedValue envMetaDown "t" "db" "p" "sum" = none :=
  metadata_failure_unavailable envMetaDown "t" "db" "p" "sum" (by decide) rfl

/-- Claim C3: when the metadata lookup succeeds with a list of sub-sources
and the query of one of them fails, the failure is isolated: the result is a
definite number, equal to the aggregation over the values collected from the
remaining sub-sources alone. -/
theorem subsource_failure_isolated (env : Env) (tok db p c : String)
    (pre post : List SubSource) (b : SubSource)
    (h1 : tok ≠ "") (h2 : env.meta db = .ok ⟨some (.list (pre ++ b :: post))⟩)
    (h3 : env.query b.id = .error ()) :
    getNotionAggregatedValue env tok db p c =
      some (aggregateValues (resolveCalc c)
        (collectValues env (resolveProp p) (pre ++ post))) := by
  have hb : sourceValues env (resolveProp p) b = [] := by
    simp [sourceValues, h3]
  simp only [getNotionAggregatedValue, aggregatorBody, if_neg h1, h2, Option.getD_some]
  rw [collectValues_append, collectValues_cons, hb, List.nil_append,
    ← collectValues_append]

/-- Witness for C3: sub-source A yields the values 1 and 2, the query of
sub-source B fails, and the sum is 3, not unavailable. -/
theorem subsource_failure_isolated_witness :
    getNotionAggregatedValue envTwoSources "t" "db" "p" "sum" = some 3 := by
  have h := subsource_failure_isolated envTwoSources "t" "db" "p" "sum"
    [⟨"A"⟩] [] ⟨"B"⟩ (by decide) rfl rfl
  rw [h]
  rw [show collectValues envTwoSources (resolveProp "p") ([⟨"A"⟩] ++ []) = [1, 2]
    from rfl]
  rw [show resolveCalc "sum" = "sum" from rfl, aggregateValues_sum _ (by decide)]
  norm_num

/-- Claim C4: when the credential is present, the metadata lookup succeeds
and the extracted-value sequence is empty, the call returns exactly the
number 0, for every aggregation kind, never the unavailable signal. -/
theorem empty_values_zero (env : Env) (tok db p c : String) (r : MetaResponse)
    (srcs : List SubSource)
    (h1 : tok ≠ "") (h2 : env.meta db = .ok r)
    (h3 : r.data_sources.getD (.list [⟨db⟩]) = .list srcs)
    (h4 : collectValues env (resolveProp p) srcs = []) :
    getNotionAggregatedValue env tok db p c = some 0 := by
  simp [getNotionAggregatedValue, aggregatorBody, h1, h2, h3, h4,
    aggregateValues_empty]

/-- Witness for C4: one sub-source returning no pages, aggregation kind
min. -/
theorem empty_values_zero_witness :
    getNotionAggregatedValue envNoPages "t" "db" "p" "min" = some 0 :=
  empty_values_zero envNoPages "t" "db" "p" "min" ⟨some (.list [⟨"A"⟩])⟩ [⟨"A"⟩]
    (by decide) rfl rfl rfl

/-- Claim C5 (counterexample): a metadata response that carries
`data_sources: []` is NOT treated as the fallback `[{id: sourceId}]`: with
an explicit empty list the call queries nothing and returns 0, while the
same service with the field absent queries the source id itself and
returns 5. -/
theorem empty_data_sources_counterexample :
    getNotionAggregatedValue envEmptyList "t" "db" "p" "sum" = some 0
    ∧ getNotionAggregatedValue envNoField "t" "db" "p" "sum" = some 5
    ∧ getNotionAggregatedValue envEmptyList "t" "db" "p" "sum"
        ≠ getNotionAggregatedValue envNoField "t" "db" "p" "sum" := by
  have h1 : getNotionAggregatedValue envEmptyList "t" "db" "p" "sum" = some 0 := rfl
  have h2 : getNotionAggregatedValue envNoField "t" "db" "p" "sum" =
      some (aggregateValues "sum" [5]) := rfl
  have h3 : getNotionAggregatedValue envNoField "t" "db" "p" "sum" = some 5 := by
    rw [h2, aggregateValues_sum _ (by decide)]
    norm_num
  refine ⟨h1, h3, ?_⟩
  rw [h1, h3]
  norm_num

/-- Claim C5 (amended): on a successful metadata lookup the fallback
`[{id: sourceId}]` is used exactly when the `data_sources` field is absent
or falsy; a present (truthy) list of sub-sources is queried as given, even
when it is the empty list. -/
theorem data_sources_fallback (env : Env) (tok db p c : String)
    (l : List SubSource) (h1 : tok ≠ "") :
    (env.meta db = .ok ⟨none⟩ →
      getNotionAggregatedValue env tok db p c =
        some (aggregateValues (resolveCalc c)
          (collectValues env (resolveProp p) [⟨db⟩])))
    ∧ (env.meta db = .ok ⟨some (.list l)⟩ →
      getNotionAggregatedValue env tok db p c =
        some (aggregateValues (resolveCalc c)
          (collectValues env (resolveProp p) l))) := by
  constructor
  · intro h2
    simp [getNotionAggregatedValue, aggregatorBody, h1, h2]
  · intro h2
    simp [getNotionAggregatedValue, aggregatorBody, h1, h2]

/-- Witness for the amended C5: the fallback branch on a service whose
metadata response has no `data_sources` field. -/
theorem data_sources_fallback_witness :
    getNotionAggregatedValue envNoField "t" "db" "p" "sum" =
      some (aggregateValues (resolveCalc "sum")
        (collectValues envNoField (resolveProp "p") [⟨"db"⟩])) :=
  (data_sources_fallback envNoField "t" "db" "p" "sum" [] (by decide)).1 rfl

/-- Claim C6 (counterexample): in the fan-out revision a page whose target
property is a rollup with inner result type number and inner value 7
contributes nothing: the extraction yields no value and the resolution
returns 0, not 7. -/
theorem rollup_skipped_counterexample :
    extractValue "p" pageRollup7 = none
    ∧ getNotionAggregatedValue envRollup "t" "db" "p" "sum" = some 0 :=
  ⟨rfl, rfl⟩

/-- Claim C6 (amended): a rollup property with inner result type number and
a non-null inner value is extracted by the legacy revision of
getNotionAggregatedValue, while the newer fan-out revision skips it. -/
theorem rollup_number_extraction (p : String) (page : Page) (v : ℚ)
    (h : findProp page.properties p = some (.rollup "number" (some v))) :
    extractValueLegacy p page = some v ∧ extractValue p page = none := by
  constructor
  · simp [extractValueLegacy, h]
  · simp [extractValue, h]

/-- Witness for the amended C6 at the concrete rollup page with value 7. -/
theorem rollup_number_extraction_witness :
    extractValueLegacy "p" pageRollup7 = some 7
    ∧ extractValue "p" pageRollup7 = none :=
  rollup_number_extraction "p" pageRollup7 7 rfl

/-- Claim C7: the unavailable signal arises exactly when the credential is
present and the metadata/fan-out lookup itself fails (the request errors,
or its `data_sources` field is truthy yet cannot be enumerated); whenever
the fan-out succeeds the result is a definite number, even when zero values
are extracted. -/
theorem unavailable_iff_fanout_failure (env : Env) (tok db p c : String) :
    (getNotionAggregatedValue env tok db p c = none ↔
      tok ≠ "" ∧ (env.meta db = .error () ∨
        ∃ r, env.meta db = .ok r ∧ r.data_sources = some .nonIterable))
    ∧ (∀ r srcs, tok ≠ "" → env.meta db = .ok r →
        r.data_sources.getD (.list [⟨db⟩]) = .list srcs →
        ∃ q, getNotionAggregatedValue env tok db p c = some q) := by
  constructor
  · constructor
    · intro h
      by_cases ht : tok = ""
      · simp [getNotionAggregatedValue, aggregatorBody, ht] at h
      · refine ⟨ht, ?_⟩
        cases hm : env.meta db with
        | error e =>
          cases e
          exact Or.inl rfl
        | ok r =>
          cases hds : r.data_sources with
          | none =>
            exact absurd h
              (by simp [getNotionAggregatedValue, aggregatorBody, ht, hm, hds])
          | some f =>
            cases f with
            | list l =>
              exact absurd h
                (by simp [getNotionAggregatedValue, aggregatorBody, ht, hm, hds])
            | nonIterable => exact Or.inr ⟨r, rfl, hds⟩
    · rintro ⟨ht, hm | ⟨r, hm, hds⟩⟩
      · simp [getNotionAggregatedValue, aggregatorBody, ht, hm]
      · simp [getNotionAggregatedValue, aggregatorBody, ht, hm, hds]
  · intro r srcs ht hm hds
    exact ⟨aggregateValues (resolveCalc c) (collectValues env (resolveProp p) srcs),
      by simp [getNotionAggregatedValue, aggregatorBody, ht, hm, hds]⟩

/-- Claim C8: with an empty (or absent, both being falsy) credential the
call immediately returns the number 0, for every behaviour of the remote
service, so no remote call influences the result. -/
theorem missing_credential_zero (env : Env) (db p c : String) :
    getNotionAggregatedValue env "" db p c = some 0 := rfl

/-- Claim C9: the extraction step contributes no value and raises nothing
when the target name is absent from the property map, when the property is
of a kind other than number, formula-number or rollup-number, or when the
inner numeric value is null; such pages are skipped and leave the values
extracted from the other pages, and hence the count of valid values,
unchanged.  Both revisions agree on every such case. -/
theorem extraction_skips (p : String) (page : Page) :
    (findProp page.properties p = none →
      extractValue p page = none ∧ extractValueLegacy p page = none)
    ∧ (∀ k, findProp page.properties p = some (.other k) →
      extractValue p page = none ∧ extractValueLegacy p page = none)
    ∧ (∀ ty num, ty ≠ "number" →
      findProp page.properties p = some (.formula ty num) →
      extractValue p page = none ∧ extractValueLegacy p page = none)
    ∧ (∀ ty num, ty ≠ "number" →
      findProp page.properties p = some (.rollup ty num) →
      extractValue p page = none ∧ extractValueLegacy p page = none)
    ∧ (findProp page.properties p = some (.number none) →
      extractValue p page = none ∧ extractValueLegacy p page = none)
    ∧ (∀ ty, findProp page.properties p = some (.formula ty none) →
      extractValue p page = none ∧ extractValueLegacy p page = none)
    ∧ (∀ ty, findProp page.properties p = some (.rollup ty none) →
      extractValue p page = none ∧ extractValueLegacy p page = none)
    ∧ (∀ l1 l2 : List Page, extractValue p page = none →
      (l1 ++ page :: l2).filterMap (extractValue p) =
        (l1 ++ l2).filterMap (extractValue p))
    ∧ (∀ l1 l2 : List Page, extractValueLegacy p page = none →
      (l1 ++ page :: l2).filterMap (extractValueLegacy p) =
        (l1 ++ l2).filterMap (extractValueLegacy p)) := by
  refine ⟨?_, ?_, ?_, ?_, ?_, ?_, ?_, ?_, ?_⟩
  · intro h
    exact ⟨by simp [extractValue, h], by simp [extractValueLegacy, h]⟩
  · intro k h
    exact ⟨by simp [extractValue, h], by simp [extractValueLegacy, h]⟩
  · intro ty num hty h
    exact ⟨by simp [extractValue, h, hty], by simp [extractValueLegacy, h, hty]⟩
  · intro ty num hty h
    exact ⟨by simp [extractValue, h, hty], by simp [extractValueLegacy, h, hty]⟩
  · intro h
    exact ⟨by simp [extractValue, h], by simp [extractValueLegacy, h]⟩
  · intro ty h
    exact ⟨by simp [extractValue, h, ite_self], by simp [extractValueLegacy, h, ite_self]⟩
  · intro ty h
    exact ⟨by simp [extractValue, h, ite_self], by simp [extractValueLegacy, h, ite_self]⟩
  · intro l1 l2 h
    simp [List.filterMap_append, List.filterMap_cons, h]
  · intro l1 l2 h
    simp [List.filterMap_append, List.filterMap_cons, h]

/-- Claim C10: for every credential, identifier pair and behaviour of the
remote service the resolution terminates with either a number or the null
unavailable marker; an error escaping the body of the outer try is mapped
to null by the catch of line 128, and a returned value passes through it
unchanged. -/
theorem total_result (env : Env) (tok db p c : String) :
    ((∃ q : ℚ, getNotionAggregatedValue env tok db p c = some q) ∨
      getNotionAggregatedValue env tok db p c = none)
    ∧ (aggregatorBody env tok db p c = .thrown →
      getNotionAggregatedValue env tok db p c = none)
    ∧ (∀ v, aggregatorBody env tok db p c = .ret v →
      getNotionAggregatedValue env tok db p c = v) := by
  refine ⟨?_, ?_, ?_⟩
  · cases h : getNotionAggregatedValue env tok db p c with
    | none => exact Or.inr rfl
    | some q => exact Or.inl ⟨q, rfl⟩
  · intro h
    simp [getNotionAggregatedValue, h]
  · intro v h
    simp [getNotionAggregatedValue, h]

/-- Witness for C10: a malformed truthy `data_sources` value makes the body
raise and the call still answers with the null marker. -/
theorem total_result_witness :
    getNotionAggregatedValue envBadField "t" "db" "p" "sum" = none :=
  (total_result envBadField "t" "db" "p" "sum").2.1 rfl
